import Mathlib

/-!
Verification of the data-transformation core (`src/lib/transform.ts`).

The development has two layers.

The dynamic layer models the JavaScript runtime: raw records are JSON
values (`Json`), and each normalization function of `transform.ts` is
translated with JavaScript semantics (truthiness, property access on
non-objects, string coercion, `trim`, `join`, strict equality).  The two
functions that can hit a `TypeError` at runtime (`normalizeString` and
`normalizeCreator`, which call `.trim()` / `.toLowerCase()` on values that
may not be strings) return `Except Unit _`, where `.error ()` models the
thrown exception; every other normalizer is total.

The typed layer models the canonical `Item` type of `src/types/item.ts`
and the enrichment pass `enrichRelatedItems`, which operates on already
normalized items.
-/

/- ===================== JavaScript string primitives ===================== -/

/-- Whitespace characters recognized by JavaScript `String.prototype.trim`
(restricted to the ASCII white space characters, which are the only ones
relevant here). -/
def isWS (c : Char) : Bool :=
  c = ' ' || c = '\t' || c = '\n' || c = '\r' || c = '\x0b' || c = '\x0c'

/-- Model of `String.prototype.trim` on the character list: drop leading and
trailing whitespace. -/
def jsTrimL (l : List Char) : List Char :=
  List.rdropWhile isWS (List.dropWhile isWS l)

/-- Model of JavaScript `String.prototype.trim`. -/
def jsTrim (s : String) : String :=
  ⟨jsTrimL s.data⟩

/-- Model of JavaScript `part.includes('?')` specialized to one character:
whether the character occurs in the string. -/
def jsIncludesChar (s : String) (c : Char) : Bool :=
  s.data.any (fun x => x = c)

/-- Model of JavaScript `String.prototype.toLowerCase` (character-wise
ASCII lowering, which covers the values compared by the code). -/
def jsToLower (s : String) : String :=
  ⟨s.data.map Char.toLower⟩

/-- Decimal digit characters. -/
def digitChar : Nat → Char
  | 0 => '0' | 1 => '1' | 2 => '2' | 3 => '3' | 4 => '4'
  | 5 => '5' | 6 => '6' | 7 => '7' | 8 => '8' | 9 => '9'
  | _ => '*'

/-- Decimal digits of `n`, least significant first.  The first argument is
fuel making the recursion structural; any fuel `≥ n` yields all digits. -/
def natToRevDigitsFuel : Nat → Nat → List Char
  | 0, _ => []
  | _+1, 0 => []
  | fuel+1, n+1 => digitChar ((n+1) % 10) :: natToRevDigitsFuel fuel ((n+1) / 10)

/-- Decimal string form of a natural number. -/
def natToString (n : Nat) : String :=
  if n = 0 then "0" else ⟨(natToRevDigitsFuel n n).reverse⟩

/-- Model of JavaScript `Number.prototype.toString` for (integral) numbers;
numbers in the data are modeled as integers. -/
def intToString (i : Int) : String :=
  if i < 0 then "-" ++ natToString i.natAbs else natToString i.toNat

/- ============================ JSON values ============================== -/

/-- JSON values, the raw-record value space.  JavaScript `undefined` and
`null` are both modeled as `Json.null`: the code only distinguishes them
through `== null`, `?? null` and truthiness, which identify the two.
Object keys are taken to be unique, as in any value produced by JSON
parsing. -/
inductive Json where
  | null : Json
  | bool : Bool → Json
  | num : Int → Json
  | str : String → Json
  | arr : List Json → Json
  | obj : List (String × Json) → Json

/-- JavaScript truthiness of a JSON value. -/
def Json.truthy : Json → Bool
  | .null => false
  | .bool b => b
  | .num n => n ≠ 0
  | .str s => s ≠ ""
  | .arr _ => true
  | .obj _ => true

/-- Own enumerable properties, as by `Object.keys`/`Object.entries`: the
key-value pairs of an object, the indexed elements of an array, nothing
for primitives. -/
def Json.entries : Json → List (String × Json)
  | .obj kvs => kvs
  | .arr xs => xs.enum.map (fun p => (natToString p.1, p.2))
  | _ => []

/-- Property access `j[k]`, with `undefined` (conflated with `null`) for a
missing property or a primitive receiver. -/
def Json.get (j : Json) (k : String) : Json :=
  match j.entries.find? (fun p => p.1 = k) with
  | some p => p.2
  | none => .null

/-- The `in` operator: property existence. -/
def Json.hasProp (j : Json) (k : String) : Bool :=
  (j.entries.find? (fun p => p.1 = k)).isSome

/-- Values on which `typeof` yields `"object"`.  (`typeof null` is
`"object"` in JavaScript as well, but every call site guards `null`
first.) -/
def Json.isObjectLike : Json → Bool
  | .null => true
  | .arr _ => true
  | .obj _ => true
  | _ => false

/-- Test for the JSON `null` (= absent) value. -/
def Json.isNull : Json → Bool
  | .null => true
  | _ => false

/-- JavaScript `a || b`. -/
def jsOr (a b : Json) : Json :=
  if a.truthy then a else b

mutual

/-- JavaScript `String(v)` / template-literal coercion of a value. -/
def jsStringOf : Json → String
  | .null => "null"
  | .bool b => if b then "true" else "false"
  | .num n => intToString n
  | .str s => s
  | .obj _ => "[object Object]"
  | .arr xs => String.intercalate "," (jsStrElems xs)

/-- Element coercion used by `Array.prototype.join`/`toString`: `null` and
`undefined` become the empty string, everything else `String(v)`. -/
def jsStrElems : List Json → List String
  | [] => []
  | .null :: rest => "" :: jsStrElems rest
  | j :: rest => jsStringOf j :: jsStrElems rest

end

/-- JavaScript `xs.join(sep)`. -/
def jsJoin (sep : String) (xs : List Json) : String :=
  String.intercalate sep (jsStrElems xs)

/- ================== normalization output data types ==================== -/

/-- Canonical flags (`ItemFlags` in `src/types/item.ts`).  The code only
ever stores the value `true`, so each field is a `Bool` recording whether
the flag was set. -/
structure ItemFlags where
  possibleDuplicate : Bool := false
  prototype : Bool := false
  needsResearch : Bool := false
  needsReview : Bool := false
  attributionUncertain : Bool := false
  materialsIncomplete : Bool := false
  missingDimensions : Bool := false
deriving DecidableEq

/-- Whether at least one flag survived (`Object.keys(normalized).length > 0`). -/
def ItemFlags.anySet (f : ItemFlags) : Bool :=
  f.possibleDuplicate || f.prototype || f.needsResearch || f.needsReview ||
    f.attributionUncertain || f.materialsIncomplete || f.missingDimensions

/-- Runtime view of a related entry produced by `normalizeRelated`:
`{type, objectId}` with the display-name (`title`) slot not yet set. -/
structure RelatedItemR where
  type : Json
  objectId : Json
  title : Option Json

/-- Runtime view of one country/region pair produced by `normalizeGeo`. -/
structure GeoR where
  country : Option Json := none
  region : Option Json := none

/-- Runtime view of a series produced by `normalizeSeries`. -/
structure SeriesR where
  title : Option Json := none
  type : Option Json := none

/-- Runtime view of a storage location produced by `normalizeLocation`. -/
structure LocationR where
  site : Option Json := none
  shelf : Option Json := none

/-- Runtime view of an edition produced by `normalizeEdition`. -/
structure EditionR where
  number : Option Json := none
  notes : Option Json := none

/-- Runtime view of the canonical `Item` built by `transformRecord`,
field by field in the order of the object literal in the source. -/
structure ItemR where
  id : Json
  accessionNumber : Option String
  title : Json
  creator : Option String
  date : Option String
  objectType : Json
  department : Json
  materials : Option String
  dimensions : Option String
  flags : Option ItemFlags
  related : List RelatedItemR
  notes : Option (List Json)
  externalIds : Option (List (String × String))
  keywords : Option (List Json)
  description : Option String
  rights : Option Json
  variants : Option (List Json)
  tags : Option (List Json)
  creditLine : Option String
  condition : Option String
  geo : Option GeoR
  inventoryLocation : Json
  transcription : Option String
  series : Option SeriesR
  location : Option LocationR
  edition : Option EditionR
  status : Option String
  provenance : Option (List Json)

/- ======================= normalization functions ======================= -/

/-- Helper to normalize a string value to null if empty or undefined
(`normalizeString`).  On a value that is neither a string nor
null/undefined, `value.trim()` throws a `TypeError`, modeled by
`.error ()`. -/
def normalizeString (value : Json) : Except Unit (Option String) :=
  match value with
  | .null => .ok none
  | .str s => if jsTrim s = "" then .ok none else .ok (some (jsTrim s))
  | _ => .error ()

/-- The array filter `creator.filter(c => c.toLowerCase() !== 'unknown')`
inside `normalizeCreator`; `c.toLowerCase()` throws a `TypeError` on a
non-string element. -/
def jsFilterNotUnknown : List Json → Except Unit (List Json)
  | [] => .ok []
  | c :: rest =>
    match c with
    | .str s =>
      if jsToLower s ≠ "unknown" then do
        let tail ← jsFilterNotUnknown rest
        .ok (.str s :: tail)
      else jsFilterNotUnknown rest
    | _ => .error ()

/-- Normalizes the creator field (`normalizeCreator`): null → null, array →
filter out "Unknown" then join with " and ", string → trimmed unless empty
or "Unknown", anything else → null. -/
def normalizeCreator (creator : Json) : Except Unit (Option String) :=
  match creator with
  | .null => .ok none
  | .arr xs =>
    if xs.length = 0 then .ok none
    else do
      let filtered ← jsFilterNotUnknown xs
      if filtered.length = 0 then .ok none
      else .ok (some (jsJoin " and " filtered))
  | .str s =>
    if jsTrim s ≠ "" then
      let normalized := jsTrim s
      if jsToLower normalized = "unknown" || normalized = "" then .ok none
      else .ok (some normalized)
    else .ok none
  | _ => .ok none

/-- Normalizes the date field (`normalizeDate`): object with a truthy
`display` → `String(display).trim()` unless case-insensitively "unknown",
number → decimal string, string → trimmed unless empty or "unknown",
otherwise null. -/
def normalizeDate : Json → Option String
  | .null => none
  | date =>
    if date.isObjectLike && date.hasProp "display" && (date.get "display").truthy then
      let display := jsToLower (jsTrim (jsStringOf (date.get "display")))
      if display = "unknown" then none
      else some (jsTrim (jsStringOf (date.get "display")))
    else
      match date with
      | .num n => some (intToString n)
      | .str s =>
        if jsTrim s ≠ "" then
          if jsToLower (jsTrim s) = "unknown" then none else some (jsTrim s)
        else none
      | _ => none

/-- Normalizes the materials field (`normalizeMaterials`): array → joined
with ", ", string → trimmed unless empty, otherwise null. -/
def normalizeMaterials : Json → Option String
  | .null => none
  | .arr xs => if xs.length = 0 then none else some (jsJoin ", " xs)
  | .str s => if jsTrim s ≠ "" then some (jsTrim s) else none
  | _ => none

/-- One entry of the `dimensionMap` table in `normalizeDimensions`. -/
structure DimensionEntry where
  key : String
  label : String
  dimensionType : Option String

/-- The `dimensionMap` table of `normalizeDimensions`: standard dimensions
(h/w/d/l) are labeled before the value, diameter/wingspan after it. -/
def dimensionMap : List DimensionEntry :=
  [⟨"h", "H", none⟩, ⟨"w", "W", none⟩, ⟨"d", "D", none⟩, ⟨"l", "L", none⟩,
   ⟨"diameter", "", some "diameter"⟩, ⟨"wingspan", "", some "wingspan"⟩]

/-- Helper to extract a dimension value (`extractValue`): `{value, unit}`
objects render as "value unit" (default unit when the pair has none), bare
numbers gain the default unit, anything else is string-coerced. -/
def extractValue (val : Json) (defaultUnit : Json) : String :=
  match val with
  | .null => ""
  | val =>
    if val.isObjectLike && !(val.get "value").isNull then
      let unit := jsOr (val.get "unit") defaultUnit
      jsTrim (jsStringOf (val.get "value") ++ " " ++ jsStringOf unit)
    else
      match val with
      | .num n =>
        if defaultUnit.truthy then jsTrim (intToString n ++ " " ++ jsStringOf defaultUnit)
        else intToString n
      | _ => jsStringOf val

/-- The `parts` pipeline of `normalizeDimensions`, over an explicit entry
list: keep the present sub-fields, render each, drop empty parts and "?"
placeholders. -/
def dimsParts (dimensions : Json) (es : List DimensionEntry) : List String :=
  let defaultUnit := jsOr (dimensions.get "unit") (Json.str "")
  ((es.filter (fun e => !(dimensions.get e.key).isNull)).map (fun e =>
      let value := extractValue (dimensions.get e.key) defaultUnit
      match e.dimensionType with
      | some dt => value ++ " " ++ dt
      | none => e.label ++ " " ++ value)).filter
    (fun part => part ≠ "" && !(jsIncludesChar part '?'))

/-- The synthesis half of `normalizeDimensions`: build parts from the
individual dimension fields, drop "?" placeholders, join with " × ". -/
def dimsSynth (dimensions : Json) : Option String :=
  let parts := dimsParts dimensions dimensionMap
  if parts.length > 0 then some (String.intercalate " × " parts) else none

/-- Normalizes the dimensions field (`normalizeDimensions`): use a
non-placeholder `display` string when present, otherwise synthesize from
the individual dimension sub-fields, otherwise null. -/
def normalizeDimensions (dimensions : Json) : Option String :=
  if !dimensions.truthy || !dimensions.isObjectLike || dimensions.entries.length = 0 then none
  else
    match dimensions.get "display" with
    | .str s =>
      if s ≠ "" then
        let display := jsToLower (jsTrim s)
        if display ≠ "" && display ≠ "?" && display ≠ "unknown" then some (jsTrim s)
        else dimsSynth dimensions
      else dimsSynth dimensions
    | _ => dimsSynth dimensions

/-- Strict equality with boolean `true` (`=== true`). -/
def jsEqTrue : Json → Bool
  | .bool true => true
  | _ => false

/-- Normalizes the flags field (`normalizeFlags`): keep each of the seven
recognized snake_case keys whose value is exactly `true`, renamed to
camelCase; null if none survive or the value is not an object. -/
def normalizeFlags (flags : Json) : Option ItemFlags :=
  if !flags.truthy || !flags.isObjectLike then none
  else
    let normalized : ItemFlags :=
      { possibleDuplicate := jsEqTrue (flags.get "possible_duplicate")
        prototype := jsEqTrue (flags.get "prototype")
        needsResearch := jsEqTrue (flags.get "needs_research")
        needsReview := jsEqTrue (flags.get "needs_review")
        attributionUncertain := jsEqTrue (flags.get "attribution_uncertain")
        materialsIncomplete := jsEqTrue (flags.get "materials_incomplete")
        missingDimensions := jsEqTrue (flags.get "missing_dimensions") }
    if normalized.anySet then some normalized else none

/-- Normalizes the related field (`normalizeRelated`): entries with a falsy
relation kind or target identifier are dropped, survivors reshaped to
`{type, objectId}`; a non-array yields the empty list. -/
def normalizeRelated : Json → List RelatedItemR
  | .arr xs =>
    if xs.length = 0 then []
    else
      (xs.filter (fun item => item.truthy && (item.get "type").truthy &&
          (item.get "object_id").truthy)).map
        (fun item => ⟨item.get "type", item.get "object_id", none⟩)
  | _ => []

/-- Test for the empty-string JSON value (strict `!== ''`). -/
def Json.isEmptyStr : Json → Bool
  | .str "" => true
  | _ => false

/-- Normalizes external IDs (`normalizeExternalIds`): drop null/empty
entries, string-coerce the rest, null if nothing remains. -/
def normalizeExternalIds (value : Json) : Option (List (String × String)) :=
  if !value.truthy || !value.isObjectLike then none
  else
    let filtered := (value.entries.filter (fun p => !p.2.isNull && !p.2.isEmptyStr)).map
      (fun p => (p.1, jsStringOf p.2))
    if filtered.length > 0 then some filtered else none

/-- Normalizes the rights field (`normalizeRights`): string → trimmed or
null, object with truthy `status` → that status value, otherwise null. -/
def normalizeRights (value : Json) : Option Json :=
  if !value.truthy then none
  else
    match value with
    | .str s => if jsTrim s ≠ "" then some (.str (jsTrim s)) else none
    | _ =>
      if value.isObjectLike && (value.get "status").truthy then some (value.get "status")
      else none

/-- Normalizes the geo field (`normalizeGeo`). -/
def normalizeGeo (value : Json) : Option GeoR :=
  if !value.truthy || !value.isObjectLike then none
  else
    let geo : GeoR :=
      { country := if (value.get "country").truthy then some (value.get "country") else none
        region := if (value.get "region").truthy then some (value.get "region") else none }
    if geo.country.isSome || geo.region.isSome then some geo else none

/-- Normalizes the series field (`normalizeSeries`). -/
def normalizeSeries (value : Json) : Option SeriesR :=
  if !value.truthy || !value.isObjectLike then none
  else
    let series : SeriesR :=
      { title := if (value.get "title").truthy then some (value.get "title") else none
        type := if (value.get "type").truthy then some (value.get "type") else none }
    if series.title.isSome || series.type.isSome then some series else none

/-- Normalizes the location field (`normalizeLocation`). -/
def normalizeLocation (value : Json) : Option LocationR :=
  if !value.truthy || !value.isObjectLike then none
  else
    let location : LocationR :=
      { site := if (value.get "site").truthy then some (value.get "site") else none
        shelf := if (value.get "shelf").truthy then some (value.get "shelf") else none }
    if location.site.isSome || location.shelf.isSome then some location else none

/-- Normalizes the edition field (`normalizeEdition`). -/
def normalizeEdition (value : Json) : Option EditionR :=
  if !value.truthy || !value.isObjectLike then none
  else
    let edition : EditionR :=
      { number := if !(value.get "number").isNull then some (value.get "number") else none
        notes := if (value.get "notes").truthy then some (value.get "notes") else none }
    if edition.number.isSome || edition.notes.isSome then some edition else none

/-- Normalizes an array field (`normalizeArray`): null unless a non-empty
array, which passes through unchanged. -/
def normalizeArray : Json → Option (List Json)
  | .arr [] => none
  | .arr xs => some xs
  | _ => none

/-- Transforms a single raw record (a JSON object) into a normalized item
(`transformRecord`).  The monadic binds occur in the evaluation order of
the object-literal fields in the source, so the first `TypeError` wins. -/
def transformRecord (record : Json) : Except Unit ItemR := do
  let accessionNumber ← normalizeString (record.get "accession_number")
  let creator ← normalizeCreator (record.get "creator")
  let description ← normalizeString (record.get "description")
  let creditLine ← normalizeString (record.get "credit_line")
  let condition ← normalizeString (record.get "condition")
  let transcription ← normalizeString (record.get "transcription")
  let status ← normalizeString (record.get "status")
  .ok
    { id := record.get "object_id"
      accessionNumber := accessionNumber
      title := jsOr (record.get "title") (.str "Unknown Title")
      creator := creator
      date := normalizeDate (record.get "date")
      objectType := record.get "object_type"
      department := record.get "department"
      materials := normalizeMaterials (record.get "materials")
      dimensions := normalizeDimensions (record.get "dimensions")
      flags := normalizeFlags (record.get "flags")
      related := normalizeRelated (record.get "related")
      notes := normalizeArray (record.get "notes")
      externalIds := normalizeExternalIds (record.get "external_ids")
      keywords := normalizeArray (record.get "keywords")
      description := description
      rights := normalizeRights (record.get "rights")
      variants := normalizeArray (record.get "variants")
      tags := normalizeArray (record.get "tags")
      creditLine := creditLine
      condition := condition
      geo := normalizeGeo (record.get "geo")
      inventoryLocation := record.get "inventory_location"
      transcription := transcription
      series := normalizeSeries (record.get "series")
      location := normalizeLocation (record.get "location")
      edition := normalizeEdition (record.get "edition")
      status := status
      provenance := normalizeArray (record.get "provenance") }

/- ===================== typed canonical items =========================== -/

/-- A related entry of a canonical item (`RelatedItem` in
`src/types/item.ts`): relation kind, target identifier, and an optional
resolved display name. -/
structure RelatedItem where
  type : String
  objectId : String
  title : Option String
deriving DecidableEq

/-- Typed geography sub-object of a canonical item. -/
structure GeoT where
  country : Option String := none
  region : Option String := none
deriving DecidableEq

/-- Typed series sub-object of a canonical item. -/
structure SeriesT where
  title : Option String := none
  type : Option String := none
deriving DecidableEq

/-- Typed storage-location sub-object of a canonical item. -/
structure LocationT where
  site : Option String := none
  shelf : Option String := none
deriving DecidableEq

/-- Typed edition sub-object of a canonical item. -/
structure EditionT where
  number : Option String := none
  notes : Option String := none
deriving DecidableEq

/-- A canonical item (`Item` in `src/types/item.ts`), the element type of
the collection passed to `enrichRelatedItems`. -/
structure Item where
  id : String
  accessionNumber : Option String := none
  title : String
  creator : Option String := none
  date : Option String := none
  objectType : String := ""
  department : String := ""
  materials : Option String := none
  dimensions : Option String := none
  flags : Option ItemFlags := none
  related : List RelatedItem := []
  notes : Option (List String) := none
  externalIds : Option (List (String × String)) := none
  keywords : Option (List String) := none
  description : Option String := none
  rights : Option String := none
  variants : Option (List String) := none
  tags : Option (List String) := none
  creditLine : Option String := none
  condition : Option String := none
  geo : Option GeoT := none
  inventoryLocation : Option String := none
  transcription : Option String := none
  series : Option SeriesT := none
  location : Option LocationT := none
  edition : Option EditionT := none
  status : Option String := none
  provenance : Option (List String) := none
deriving DecidableEq

/-- `Map.prototype.set`: overwrite the value at an existing key, otherwise
append the binding. -/
def mapSet (m : List (String × String)) (k v : String) : List (String × String) :=
  if m.any (fun p => p.1 = k) then m.map (fun p => if p.1 = k then (k, v) else p)
  else m ++ [(k, v)]

/-- `Map.prototype.get`: the value bound to the key, if any. -/
def mapGet (m : List (String × String)) (k : String) : Option String :=
  (m.find? (fun p => p.1 = k)).map (fun p => p.2)

/-- The id → title lookup map built by `enrichRelatedItems`. -/
def buildTitleMap (items : List Item) : List (String × String) :=
  items.foldl (fun m item => mapSet m item.id item.title) []

/-- JavaScript `a || b` on a possibly-undefined string: the fallback is
taken when the lookup missed or produced the (falsy) empty string. -/
def jsOrStr (a : Option String) (b : String) : String :=
  match a with
  | some s => if s ≠ "" then s else b
  | none => b

/-- Enriches items with related object titles (`enrichRelatedItems`):
builds the id → title map, then rewrites every related entry's `title`
slot to `titleMap.get(rel.objectId) || rel.objectId`. -/
def enrichRelatedItems (items : List Item) : List Item :=
  let titleMap := buildTitleMap items
  items.map (fun item =>
    { item with
      related := item.related.map (fun rel =>
        { rel with title := some (jsOrStr (mapGet titleMap rel.objectId) rel.objectId) }) })

/- =================== claim-side (spec) definitions ===================== -/

/-- Invariant claimed for canonical textual fields: a non-empty string
equal to its own trim. -/
def StrInv (s : String) : Prop :=
  s ≠ "" ∧ jsTrim s = s

/-- A raw field value that is a string or absent (the documented shape of
the plain optional string fields). -/
def strOrNull (j : Json) : Prop :=
  j = Json.null ∨ ∃ s, j = Json.str s

/-- A raw creator value that cannot make `normalizeCreator` throw: if it is
an array, all its elements are strings. -/
def creatorOk (j : Json) : Prop :=
  ∀ xs, j = Json.arr xs → ∀ x ∈ xs, ∃ s, x = Json.str s

/-- Usable display string of a raw dimensions value, per the spec: a
string `display` whose trimmed lower-cased form is none of "", "?",
"unknown". -/
def hasUsableDisplay (dimensions : Json) : Bool :=
  match dimensions.get "display" with
  | .str s =>
    s ≠ "" && jsToLower (jsTrim s) ≠ "" && jsToLower (jsTrim s) ≠ "?" &&
      jsToLower (jsTrim s) ≠ "unknown"
  | _ => false

/-- The record-level default unit as the spec describes it: the `unit`
sub-field when it is a string, otherwise nothing. -/
def specDefaultUnit (dimensions : Json) : Option String :=
  match dimensions.get "unit" with
  | .str u => some u
  | _ => none

/-- Spec-side rendering of one dimension sub-value: a `{value, unit}` pair
renders as "value unit" (default unit substituting for a missing unit), a
bare number gains the default unit when one exists, a bare string renders
as itself; `none` when the sub-field is absent. -/
def specRenderValue (v : Json) (du : Option String) : Option String :=
  match v with
  | .null => none
  | .num n =>
    some (match du with
      | some u => intToString n ++ " " ++ u
      | none => intToString n)
  | .str s => some s
  | .obj kvs =>
    let n := match (Json.obj kvs).get "value" with
      | .num n => intToString n
      | v => jsStringOf v
    some (match (match (Json.obj kvs).get "unit" with
        | .str u => some u
        | _ => none).or du with
      | some u => n ++ " " ++ u
      | none => n)
  | _ => none

/-- Spec-side dimensions synthesis, following the claim: render the
sub-fields in the fixed order h, w, d, l, diameter, wingspan (labels
before the value for h/w/d/l, after it for diameter/wingspan), drop any
part containing "?", join the survivors with " × ", absence if none
survive. -/
def dimsSpecParts (dimensions : Json) (es : List DimensionEntry) : List String :=
  (es.filterMap (fun e =>
    (specRenderValue (dimensions.get e.key) (specDefaultUnit dimensions)).map (fun v =>
      match e.dimensionType with
      | some dt => v ++ " " ++ dt
      | none => e.label ++ " " ++ v))).filter (fun part => !(jsIncludesChar part '?'))

/-- Spec-side dimensions synthesis over the fixed entry order. -/
def dimsSpecSynth (dimensions : Json) : Option String :=
  let parts := dimsSpecParts dimensions dimensionMap
  if parts = [] then none else some (String.intercalate " × " parts)

/-- A dimension sub-value of one of the shapes whose rendering the claim
describes: absent, a bare number, a bare string, or a `{value, unit}` pair
with a numeric value and an absent or trimmed non-empty string unit. -/
def renderableVal (v : Json) : Prop :=
  v = Json.null ∨ (∃ n, v = Json.num n) ∨ (∃ s, v = Json.str s) ∨
    (∃ kvs n, v = Json.obj kvs ∧ (Json.obj kvs).get "value" = Json.num n ∧
      ((Json.obj kvs).get "unit" = Json.null ∨
        ∃ u, (Json.obj kvs).get "unit" = Json.str u ∧ u ≠ "" ∧ jsTrim u = u))

/-- A well-formed record-level unit sub-field: absent, or a trimmed
non-empty string. -/
def unitOk (u : Json) : Prop :=
  u = Json.null ∨ ∃ t, u = Json.str t ∧ t ≠ "" ∧ jsTrim t = t

/-- Spec-side resolution of a related entry's display name, as amended:
the indexed title when the target exists in the collection and its title
is non-empty, otherwise the raw identifier. -/
def resolveTitle (items : List Item) (objectId : String) : String :=
  match items.find? (fun it => it.id = objectId) with
  | some it => if it.title ≠ "" then it.title else objectId
  | none => objectId

/-- The seven recognized raw flag keys. -/
def rawFlagKeys : List String :=
  ["possible_duplicate", "prototype", "needs_research", "needs_review",
   "attribution_uncertain", "materials_incomplete", "missing_dimensions"]

/-- Frame relation on related entries: relation kind and target identifier
unchanged. -/
def relFrame (ra rb : RelatedItem) : Prop :=
  rb.type = ra.type ∧ rb.objectId = ra.objectId

/-- Frame relation on items: every field other than `related` unchanged,
and `related` of the same length and order with kind and identifier
unchanged. -/
def agreesExceptRelated (a b : Item) : Prop :=
  b.id = a.id ∧ b.accessionNumber = a.accessionNumber ∧ b.title = a.title ∧
  b.creator = a.creator ∧ b.date = a.date ∧ b.objectType = a.objectType ∧
  b.department = a.department ∧ b.materials = a.materials ∧
  b.dimensions = a.dimensions ∧ b.flags = a.flags ∧ b.notes = a.notes ∧
  b.externalIds = a.externalIds ∧ b.keywords = a.keywords ∧
  b.description = a.description ∧ b.rights = a.rights ∧ b.variants = a.variants ∧
  b.tags = a.tags ∧ b.creditLine = a.creditLine ∧ b.condition = a.condition ∧
  b.geo = a.geo ∧ b.inventoryLocation = a.inventoryLocation ∧
  b.transcription = a.transcription ∧ b.series = a.series ∧
  b.location = a.location ∧ b.edition = a.edition ∧ b.status = a.status ∧
  b.provenance = a.provenance ∧ List.Forall₂ relFrame a.related b.related

/-- Convenience constructor: an item with only id, title and related set. -/
def mkItem (id title : String) (related : List RelatedItem) : Item :=
  { id := id, title := title, related := related }

/-- The enrichment example of the spec: "Chair" is referenced by a related
entry of "Table", together with an unresolvable reference "Z". -/
def demoItems : List Item :=
  [mkItem "A" "Chair" [],
   mkItem "B" "Table" [⟨"paired-with", "A", none⟩, ⟨"paired-with", "Z", none⟩]]

/-- An item whose title is the empty string and which references itself. -/
def emptyTitleItem : Item :=
  mkItem "A" "" [⟨"paired-with", "A", none⟩]

/- ===================== string machinery lemmas ========================= -/

theorem head_not_ws_of_jsTrimL (l : List Char) (c : Char)
    (h : (jsTrimL l).head? = some c) : isWS c = false := by
  unfold jsTrimL at h
  obtain ⟨t, ht⟩ := List.rdropWhile_prefix isWS (List.dropWhile isWS l)
  have hne : List.rdropWhile isWS (List.dropWhile isWS l) ≠ [] := by
    intro he; rw [he] at h; exact Option.noConfusion h
  have hy : (List.dropWhile isWS l).head? = some c := by
    rw [← ht, List.head?_append_of_ne_nil _ hne]; exact h
  have hyne : List.dropWhile isWS l ≠ [] := by
    intro he; rw [he] at hy; exact Option.noConfusion hy
  have hhead := List.head_dropWhile_not isWS l hyne
  rw [List.head?_eq_head hyne] at hy
  rw [Option.some_inj.mp hy] at hhead
  exact hhead

theorem getLast_not_ws_of_jsTrimL (l : List Char) (c : Char)
    (h : (jsTrimL l).getLast? = some c) : isWS c = false := by
  unfold jsTrimL at h
  have hne : List.rdropWhile isWS (List.dropWhile isWS l) ≠ [] := by
    intro he; rw [he] at h; exact Option.noConfusion h
  have hlast := List.rdropWhile_last_not isWS (List.dropWhile isWS l) hne
  rw [List.getLast?_eq_getLast_of_ne_nil hne] at h
  rw [Option.some_inj.mp h] at hlast
  simpa using hlast

theorem jsTrimL_eq_self (l : List Char)
    (h1 : ∀ c, l.head? = some c → isWS c = false)
    (h2 : ∀ c, l.getLast? = some c → isWS c = false) : jsTrimL l = l := by
  unfold jsTrimL
  have hd : List.dropWhile isWS l = l := by
    cases l with
    | nil => rfl
    | cons a as => simp [List.dropWhile, h1 a rfl]
  rw [hd]
  rw [List.rdropWhile_eq_self_iff]
  intro hl
  have := h2 (l.getLast hl) (List.getLast?_eq_getLast_of_ne_nil hl)
  simp [this]

theorem jsTrimL_fix_head (l : List Char) (h : jsTrimL l = l) :
    ∀ c, l.head? = some c → isWS c = false := by
  intro c hc
  exact head_not_ws_of_jsTrimL l c (by rw [h]; exact hc)

theorem jsTrimL_fix_getLast (l : List Char) (h : jsTrimL l = l) :
    ∀ c, l.getLast? = some c → isWS c = false := by
  intro c hc
  exact getLast_not_ws_of_jsTrimL l c (by rw [h]; exact hc)

theorem jsTrimL_idem (l : List Char) : jsTrimL (jsTrimL l) = jsTrimL l :=
  jsTrimL_eq_self _ (head_not_ws_of_jsTrimL l) (getLast_not_ws_of_jsTrimL l)

theorem jsTrim_data (s : String) : (jsTrim s).data = jsTrimL s.data := rfl

theorem jsTrim_idem (s : String) : jsTrim (jsTrim s) = jsTrim s :=
  congrArg String.mk (jsTrimL_idem s.data)

theorem str_ne_empty_iff (s : String) : s ≠ "" ↔ s.data ≠ [] := by
  constructor
  · intro h hd
    exact h (congrArg String.mk hd)
  · intro h hs
    exact h (congrArg String.data hs)

theorem jsTrim_eq_self_of_all (s : String) (h : ∀ c ∈ s.data, isWS c = false) :
    jsTrim s = s := by
  have := jsTrimL_eq_self s.data
    (fun c hc => h c (by
      have hcons := List.eq_cons_of_mem_head? (Option.mem_def.mpr hc)
      rw [hcons]
      exact List.mem_cons_self _ _))
    (fun c hc => h c (by
      have hne : s.data ≠ [] := by
        intro he; rw [he] at hc; exact Option.noConfusion hc
      rw [List.getLast?_eq_getLast_of_ne_nil hne] at hc
      rw [← Option.some_inj.mp hc]
      exact List.getLast_mem hne))
  calc jsTrim s = ⟨jsTrimL s.data⟩ := rfl
    _ = ⟨s.data⟩ := congrArg String.mk this
    _ = s := rfl

theorem digitChar_not_ws (d : Nat) : isWS (digitChar d) = false := by
  rcases d with _|_|_|_|_|_|_|_|_|_|d <;> rfl

theorem natToRevDigitsFuel_not_ws :
    ∀ f n c, c ∈ natToRevDigitsFuel f n → isWS c = false := by
  intro f
  induction f with
  | zero => intro n c h; simp [natToRevDigitsFuel] at h
  | succ f ih =>
    intro n c h
    cases n with
    | zero => simp [natToRevDigitsFuel] at h
    | succ m =>
      simp only [natToRevDigitsFuel, List.mem_cons] at h
      rcases h with h | h
      · rw [h]; exact digitChar_not_ws _
      · exact ih _ _ h

theorem natToString_chars (n : Nat) : ∀ c ∈ (natToString n).data, isWS c = false := by
  unfold natToString
  split
  · intro c hc
    have : (("0" : String)).data = ['0'] := rfl
    rw [this] at hc
    simp at hc
    rw [hc]; rfl
  · intro c hc
    simp only [List.mem_reverse] at hc
    exact natToRevDigitsFuel_not_ws _ _ _ hc

theorem natToString_ne_empty (n : Nat) : natToString n ≠ "" := by
  cases n with
  | zero => decide
  | succ m =>
    unfold natToString
    rw [if_neg (Nat.succ_ne_zero m)]
    rw [str_ne_empty_iff]
    show (natToRevDigitsFuel (m+1) (m+1)).reverse ≠ []
    simp [natToRevDigitsFuel]

theorem intToString_chars (i : Int) : ∀ c ∈ (intToString i).data, isWS c = false := by
  unfold intToString
  split
  · intro c hc
    rw [String.data_append] at hc
    rcases List.mem_append.mp hc with h | h
    · have : (("-" : String)).data = ['-'] := rfl
      rw [this] at h
      simp at h
      rw [h]; rfl
    · exact natToString_chars _ c h
  · exact natToString_chars _

theorem intToString_StrInv (i : Int) : StrInv (intToString i) := by
  constructor
  · unfold intToString
    split
    · rw [str_ne_empty_iff, String.data_append]
      intro h
      have : (("-" : String)).data = ['-'] := rfl
      rw [this] at h
      exact List.cons_ne_nil _ _ (List.append_eq_nil.mp h).1
    · exact natToString_ne_empty _
  · exact jsTrim_eq_self_of_all _ (intToString_chars i)

theorem strInv_data_fix (s : String) (h : StrInv s) : jsTrimL s.data = s.data :=
  congrArg String.data h.2

theorem dropWhile_self_of_strInv (a : String) (ha : StrInv a) :
    List.dropWhile isWS a.data = a.data := by
  cases hd : a.data with
  | nil => rfl
  | cons x xs =>
    have hx := jsTrimL_fix_head a.data (strInv_data_fix a ha) x (by rw [hd]; rfl)
    simp [List.dropWhile_cons, hx]

theorem rdropWhile_self_of_strInv (a : String) (ha : StrInv a) :
    List.rdropWhile isWS a.data = a.data := by
  rw [List.rdropWhile_eq_self_iff]
  intro hl
  have := jsTrimL_fix_getLast a.data (strInv_data_fix a ha) (a.data.getLast hl)
    (List.getLast?_eq_getLast_of_ne_nil hl)
  simp [this]

theorem jsTrim_append_sep (a b : String) (ha : StrInv a) (hb : StrInv b) :
    jsTrim (a ++ " " ++ b) = a ++ " " ++ b := by
  have hadata : a.data ≠ [] := (str_ne_empty_iff a).mp ha.1
  have hbdata : b.data ≠ [] := (str_ne_empty_iff b).mp hb.1
  have key : jsTrimL (a ++ " " ++ b).data = (a ++ " " ++ b).data := by
    apply jsTrimL_eq_self
    · intro c hc
      rw [String.data_append, String.data_append] at hc
      rw [List.head?_append_of_ne_nil _
        (fun h => hadata (List.append_eq_nil.mp h).1)] at hc
      rw [List.head?_append_of_ne_nil _ hadata] at hc
      exact jsTrimL_fix_head a.data (strInv_data_fix a ha) c hc
    · intro c hc
      rw [String.data_append] at hc
      rw [List.getLast?_append_of_ne_nil _ hbdata] at hc
      exact jsTrimL_fix_getLast b.data (strInv_data_fix b hb) c hc
  exact congrArg String.mk key

theorem jsTrim_append_space (a : String) (ha : StrInv a) : jsTrim (a ++ " ") = a := by
  have hadata : a.data ≠ [] := (str_ne_empty_iff a).mp ha.1
  have key : jsTrimL (a ++ " ").data = a.data := by
    rw [String.data_append]
    show jsTrimL (a.data ++ [' ']) = a.data
    unfold jsTrimL
    have hdw : List.dropWhile isWS (a.data ++ [' ']) = a.data ++ [' '] := by
      cases hd : a.data with
      | nil => exact absurd hd hadata
      | cons x xs =>
        have hx := jsTrimL_fix_head a.data (strInv_data_fix a ha) x (by rw [hd]; rfl)
        rw [List.cons_append, List.dropWhile_cons, hx]
        simp
    rw [hdw]
    rw [List.rdropWhile_concat_pos isWS a.data ' ' (by rfl)]
    exact rdropWhile_self_of_strInv a ha
  calc jsTrim (a ++ " ") = ⟨jsTrimL (a ++ " ").data⟩ := rfl
    _ = ⟨a.data⟩ := congrArg String.mk key
    _ = a := rfl

theorem append_sep_ne_empty (x y : String) : x ++ " " ++ y ≠ "" := by
  rw [str_ne_empty_iff, String.data_append, String.data_append]
  intro h
  rcases List.append_eq_nil.mp h with ⟨h1, -⟩
  rcases List.append_eq_nil.mp h1 with ⟨-, h2⟩
  exact absurd h2 (by decide)

theorem jsTrim_strInv (s : String) (h : jsTrim s ≠ "") : StrInv (jsTrim s) :=
  ⟨h, jsTrim_idem s⟩

theorem isNull_false_of_ne (j : Json) (h : j ≠ Json.null) : j.isNull = false := by
  cases j <;> first | exact absurd rfl h | rfl

theorem extractValue_eq_spec (dims v : Json) (hv : renderableVal v)
    (hdu : unitOk (dims.get "unit")) (hnn : v ≠ Json.null) :
    specRenderValue v (specDefaultUnit dims)
      = some (extractValue v (jsOr (dims.get "unit") (Json.str ""))) := by
  rcases hv with h | ⟨n, h⟩ | ⟨s, h⟩ | ⟨kvs, n, h, hval, hunit⟩
  · exact absurd h hnn
  · subst h
    rcases hdu with hd | ⟨t, hd, ht, htfix⟩
    · simp [specDefaultUnit, hd, specRenderValue, extractValue, jsOr, Json.truthy,
        Json.isObjectLike]
    · simp [specDefaultUnit, hd, specRenderValue, extractValue, jsOr, Json.truthy,
        Json.isObjectLike, ht, jsStringOf,
        jsTrim_append_sep _ _ (intToString_StrInv n) ⟨ht, htfix⟩]
  · subst h
    simp [specRenderValue, extractValue, Json.isObjectLike, jsStringOf]
  · subst h
    rcases hunit with hu | ⟨u, hu, hune, hufix⟩
    · rcases hdu with hd | ⟨t, hd, ht, htfix⟩
      · simp [specRenderValue, hval, hu, specDefaultUnit, hd, extractValue,
          Json.isObjectLike, Json.isNull, jsOr, Json.truthy, jsStringOf, Option.or,
          jsTrim_append_space _ (intToString_StrInv n)]
      · simp [specRenderValue, hval, hu, specDefaultUnit, hd, extractValue,
          Json.isObjectLike, Json.isNull, jsOr, Json.truthy, jsStringOf, Option.or, ht,
          jsTrim_append_sep _ _ (intToString_StrInv n) ⟨ht, htfix⟩]
    · simp [specRenderValue, hval, hu, specDefaultUnit, extractValue,
        Json.isObjectLike, Json.isNull, jsOr, Json.truthy, jsStringOf, Option.or, hune,
        jsTrim_append_sep _ _ (intToString_StrInv n) ⟨hune, hufix⟩]

theorem dimsParts_eq_spec (dims : Json) (hdu : unitOk (dims.get "unit")) :
    ∀ es : List DimensionEntry, (∀ e ∈ es, renderableVal (dims.get e.key)) →
      dimsParts dims es = dimsSpecParts dims es := by
  intro es
  induction es with
  | nil => intro _; rfl
  | cons e es ih =>
    intro h
    have hre := h e (List.mem_cons_self e es)
    have hrest : ∀ e' ∈ es, renderableVal (dims.get e'.key) :=
      fun e' he' => h e' (List.mem_cons_of_mem e he')
    have ihr := ih hrest
    by_cases hn : dims.get e.key = Json.null
    · have hspecnone : specRenderValue (dims.get e.key) (specDefaultUnit dims) = none := by
        rw [hn]; rfl
      simp only [dimsParts, dimsSpecParts, List.filter_cons, List.filterMap_cons, hn,
        Json.isNull, Bool.not_true, hspecnone] at ihr ⊢
      exact ihr
    · have hspec := extractValue_eq_spec dims (dims.get e.key) hre hdu hn
      have hinull : (dims.get e.key).isNull = false := isNull_false_of_ne _ hn
      have hwne : ∀ w : String,
          (match e.dimensionType with
            | some dt => w ++ " " ++ dt
            | none => e.label ++ " " ++ w) ≠ "" := by
        intro w
        cases e.dimensionType <;> exact append_sep_ne_empty _ _
      simp only [dimsParts, dimsSpecParts, List.filter_cons, List.filterMap_cons, hinull,
        Bool.not_false, if_true, List.map_cons, hspec, Option.map_some'] at ihr ⊢
      rw [ihr, decide_eq_true (hwne _), Bool.true_and]

theorem dimsSynth_eq_spec (dims : Json) (hdu : unitOk (dims.get "unit"))
    (h : ∀ e ∈ dimensionMap, renderableVal (dims.get e.key)) :
    dimsSynth dims = dimsSpecSynth dims := by
  have hp := dimsParts_eq_spec dims hdu dimensionMap h
  unfold dimsSynth dimsSpecSynth
  rw [hp]
  cases hq : dimsSpecParts dims dimensionMap with
  | nil => rfl
  | cons a l => simp

/-- Claim C4: when the raw dimensions value is a non-empty object without a
usable display string, `normalizeDimensions` synthesizes the result from
the sub-fields in the fixed order h, w, d, l, diameter, wingspan (h/w/d/l
rendered as "H v"/"W v"/"D v"/"L v", diameter/wingspan as "v diameter"/
"v wingspan"; `{value, unit}` pairs as "value unit" with the record default
unit for a missing unit, bare numbers gaining the default unit, bare
strings rendering as themselves), drops parts containing "?", joins the
survivors with " × " and yields absence when none survive; in particular
`{display: "?", h: 10, unit: "cm"}` gives "H 10 cm" and
`{diameter: 12, unit: "in"}` gives "12 in diameter", and null, non-objects
and the empty object give absence. -/
theorem claim_C4_dimensions :
    (∀ kvs : List (String × Json), kvs ≠ [] →
      hasUsableDisplay (Json.obj kvs) = false →
      unitOk ((Json.obj kvs).get "unit") →
      (∀ e ∈ dimensionMap, renderableVal ((Json.obj kvs).get e.key)) →
      normalizeDimensions (Json.obj kvs) = dimsSpecSynth (Json.obj kvs))
  ∧ normalizeDimensions (Json.obj [("display", Json.str "?"), ("h", Json.num 10),
      ("unit", Json.str "cm")]) = some "H 10 cm"
  ∧ normalizeDimensions (Json.obj [("diameter", Json.num 12), ("unit", Json.str "in")])
      = some "12 in diameter"
  ∧ normalizeDimensions (Json.obj [("h", Json.obj [("value", Json.num 26),
      ("unit", Json.str "in")]), ("w", Json.obj [("value", Json.num 21),
      ("unit", Json.str "in")])]) = some "H 26 in × W 21 in"
  ∧ normalizeDimensions Json.null = none
  ∧ (∀ s, normalizeDimensions (Json.str s) = none)
  ∧ (∀ n, normalizeDimensions (Json.num n) = none)
  ∧ (∀ b, normalizeDimensions (Json.bool b) = none)
  ∧ normalizeDimensions (Json.obj []) = none := by
  refine ⟨?_, by decide, by decide, by decide, by decide, ?_, ?_, ?_, by decide⟩
  · intro kvs hne husable hunit hrender
    have hsynth : dimsSynth (Json.obj kvs) = dimsSpecSynth (Json.obj kvs) :=
      dimsSynth_eq_spec _ hunit hrender
    unfold hasUsableDisplay at husable
    simp only [normalizeDimensions, Json.truthy, Json.isObjectLike, Json.entries,
      Bool.not_true, Bool.false_or, List.length_eq_zero, hne, decide_False,
      Bool.or_false, if_false]
    cases hd : (Json.obj kvs).get "display" with
    | str s =>
      rw [hd] at husable
      by_cases hs : s = ""
      · subst hs
        simp [hsynth]
      · simp only [hs, ne_eq, not_false_eq_true, decide_True, Bool.true_and] at husable
        simp [hs, hsynth]
        intro ha hb hc
        simp [ha, hb, hc] at husable
    | null => simp [hsynth]
    | bool b => simp [hsynth]
    | num n => simp [hsynth]
    | arr xs => simp [hsynth]
    | obj kvs2 => simp [hsynth]
  · intro s
    simp [normalizeDimensions, Json.isObjectLike]
  · intro n
    simp [normalizeDimensions, Json.isObjectLike]
  · intro b
    simp [normalizeDimensions, Json.isObjectLike]

/-- Witness for C4: the synthesis equality instantiated at the concrete
record `{h: 10, unit: "cm"}`, whose synthesized display is "H 10 cm". -/
theorem claim_C4_dimensions_witness :
    normalizeDimensions (Json.obj [("h", Json.num 10), ("unit", Json.str "cm")])
        = dimsSpecSynth (Json.obj [("h", Json.num 10), ("unit", Json.str "cm")])
      ∧ dimsSpecSynth (Json.obj [("h", Json.num 10), ("unit", Json.str "cm")])
        = some "H 10 cm" := by
  constructor
  · apply claim_C4_dimensions.1 [("h", Json.num 10), ("unit", Json.str "cm")]
      (List.cons_ne_nil _ _) (by decide)
      (Or.inr ⟨"cm", rfl, by decide, by decide⟩)
    intro e he
    fin_cases he
    · exact Or.inr (Or.inl ⟨10, rfl⟩)
    · exact Or.inl rfl
    · exact Or.inl rfl
    · exact Or.inl rfl
    · exact Or.inl rfl
    · exact Or.inl rfl
  · decide

theorem jsFilterNotUnknown_strs (ss : List String) :
    jsFilterNotUnknown (ss.map Json.str)
      = .ok ((ss.filter (fun c => jsToLower c ≠ "unknown")).map Json.str) := by
  induction ss with
  | nil => rfl
  | cons a ss ih =>
    simp only [List.map_cons, jsFilterNotUnknown, List.filter_cons]
    by_cases h : jsToLower a = "unknown"
    · simp [h, ih]
    · simp [h, ih]; rfl

theorem exceptBind_ok {ε α β : Type} (a : α) (f : α → Except ε β) :
    (Except.ok a >>= f) = f a := rfl

theorem jsStrElems_strs (ss : List String) : jsStrElems (ss.map Json.str) = ss := by
  induction ss with
  | nil => rfl
  | cons a ss ih =>
    simp only [List.map_cons, jsStrElems, jsStringOf]
    rw [ih]

theorem jsJoin_strs (sep : String) (ss : List String) :
    jsJoin sep (ss.map Json.str) = String.intercalate sep ss := by
  unfold jsJoin
  rw [jsStrElems_strs]

/-- Claim C3: `normalizeCreator` maps null to absence; maps an array of
strings to absence when nothing remains after removing entries
case-insensitively equal to "unknown" (including the empty array), and
otherwise to the remaining entries in order joined with " and "; maps a
string to absence when it trims to empty or its trim is case-insensitively
"unknown", and otherwise to the trimmed string.  In particular
`["Charles Eames", "Ray Eames"]` gives "Charles Eames and Ray Eames",
`["Unknown"]`, `[]` and `"Unknown"` give absence, and `"  Ray Eames  "`
gives "Ray Eames". -/
theorem claim_C3_creator :
    normalizeCreator Json.null = .ok none
  ∧ (∀ ss : List String, normalizeCreator (Json.arr (ss.map Json.str)) = .ok (
      if ss.filter (fun c => jsToLower c ≠ "unknown") = [] then none
      else some (String.intercalate " and " (ss.filter (fun c => jsToLower c ≠ "unknown")))))
  ∧ (∀ s, normalizeCreator (Json.str s) = .ok (
      if jsTrim s = "" ∨ jsToLower (jsTrim s) = "unknown" then none else some (jsTrim s)))
  ∧ normalizeCreator (Json.arr [Json.str "Charles Eames", Json.str "Ray Eames"])
      = .ok (some "Charles Eames and Ray Eames")
  ∧ normalizeCreator (Json.arr [Json.str "Unknown"]) = .ok none
  ∧ normalizeCreator (Json.arr []) = .ok none
  ∧ normalizeCreator (Json.str "Unknown") = .ok none
  ∧ normalizeCreator (Json.str "  Ray Eames  ") = .ok (some "Ray Eames") := by
  refine ⟨rfl, ?_, ?_, rfl, rfl, rfl, rfl, rfl⟩
  · intro ss
    cases ss with
    | nil => rfl
    | cons a ss =>
      simp only [normalizeCreator]
      rw [if_neg (by simp), jsFilterNotUnknown_strs (a :: ss), exceptBind_ok]
      simp only [List.length_map, List.length_eq_zero, jsJoin_strs]
      split <;> simp_all
  · intro s
    by_cases he : jsTrim s = ""
    · simp [normalizeCreator, he]
    · by_cases hu : jsToLower (jsTrim s) = "unknown"
      · simp [normalizeCreator, he, hu]
      · simp [normalizeCreator, he, hu]

theorem natToRevDigitsFuel_is_digit :
    ∀ f n c, c ∈ natToRevDigitsFuel f n → ∃ d, c = digitChar d := by
  intro f
  induction f with
  | zero => intro n c h; simp [natToRevDigitsFuel] at h
  | succ f ih =>
    intro n c h
    cases n with
    | zero => simp [natToRevDigitsFuel] at h
    | succ m =>
      simp only [natToRevDigitsFuel, List.mem_cons] at h
      rcases h with h | h
      · exact ⟨_, h⟩
      · exact ih _ _ h

theorem natToString_is_digit (n : Nat) :
    ∀ c ∈ (natToString n).data, ∃ d, c = digitChar d := by
  unfold natToString
  split
  · intro c hc
    have : (("0" : String)).data = ['0'] := rfl
    rw [this] at hc
    simp at hc
    exact ⟨0, hc⟩
  · intro c hc
    simp only [List.mem_reverse] at hc
    exact natToRevDigitsFuel_is_digit _ _ _ hc

theorem digitChar_ne_d (d : Nat) : digitChar d ≠ 'd' := by
  rcases d with _|_|_|_|_|_|_|_|_|_|d <;> simp [digitChar]

theorem natToString_ne_display (n : Nat) : natToString n ≠ "display" := by
  intro h
  have hd : 'd' ∈ (natToString n).data := by
    rw [h]; decide
  obtain ⟨d, hdc⟩ := natToString_is_digit n 'd' hd
  exact digitChar_ne_d d hdc.symm

theorem arr_find_display (xs : List Json) :
    ((Json.arr xs).entries.find? (fun p => p.1 = "display")) = none := by
  apply List.find?_eq_none.mpr
  intro x hx
  simp only [Json.entries, List.mem_map] at hx
  obtain ⟨p, hp, rfl⟩ := hx
  simp [natToString_ne_display p.1]

theorem arr_hasProp_display (xs : List Json) :
    (Json.arr xs).hasProp "display" = false := by
  unfold Json.hasProp
  rw [arr_find_display]
  rfl

theorem hasProp_of_get_truthy (j : Json) (k : String) (h : (j.get k).truthy = true) :
    j.hasProp k = true := by
  unfold Json.get at h
  unfold Json.hasProp
  cases hf : j.entries.find? (fun p => p.1 = k) with
  | none => rw [hf] at h; exact absurd h (by simp [Json.truthy])
  | some p => simp [hf]

/-- Counterexample to claim C9: an object whose `display` is the number
1900 is not "an object with a non-empty display string", so the claim's
catch-all ("any other shape yields absence") requires absence; the code
string-coerces any truthy display and returns "1900". -/
theorem claim_C9_date_counterexample :
    normalizeDate (Json.obj [("display", Json.num 1900)]) = some "1900" ∧
      normalizeDate (Json.obj [("display", Json.num 1900)]) ≠ none := by
  constructor
  · decide
  · decide

/-- Claim C9 as amended: `normalizeDate` maps null to absence; maps an
object with a truthy `display` value (not only a string) to the trimmed
string coercion of that value, unless its case-insensitive trim is
"unknown", in which case to absence; maps an object whose `display` is
falsy or missing to absence; maps a number to its decimal string form;
maps a string to its trimmed value unless the trim is empty or
case-insensitively "unknown", in which case to absence; booleans and
arrays yield absence. -/
theorem claim_C9_date_amended :
    normalizeDate Json.null = none
  ∧ (∀ kvs, ((Json.obj kvs).get "display").truthy = true →
      normalizeDate (Json.obj kvs) =
        (if jsToLower (jsTrim (jsStringOf ((Json.obj kvs).get "display"))) = "unknown" then none
         else some (jsTrim (jsStringOf ((Json.obj kvs).get "display")))))
  ∧ (∀ kvs, ((Json.obj kvs).get "display").truthy = false →
      normalizeDate (Json.obj kvs) = none)
  ∧ (∀ n, normalizeDate (Json.num n) = some (intToString n))
  ∧ (∀ s, normalizeDate (Json.str s) =
      (if jsTrim s = "" ∨ jsToLower (jsTrim s) = "unknown" then none else some (jsTrim s)))
  ∧ (∀ b, normalizeDate (Json.bool b) = none)
  ∧ (∀ xs, normalizeDate (Json.arr xs) = none)
  ∧ normalizeDate (Json.obj [("display", Json.str "1945–1946"), ("earliest", Json.num 1945),
      ("latest", Json.num 1946)]) = some "1945–1946"
  ∧ normalizeDate (Json.num 1900) = some "1900"
  ∧ normalizeDate (Json.str "unknown") = none
  ∧ normalizeDate (Json.str "  Unknown ") = none := by
  refine ⟨rfl, ?_, ?_, ?_, ?_, ?_, ?_, by decide, by decide, by decide, by decide⟩
  · intro kvs h
    have hp := hasProp_of_get_truthy (Json.obj kvs) "display" h
    simp [normalizeDate, Json.isObjectLike, hp, h]
  · intro kvs h
    simp [normalizeDate, Json.isObjectLike, h]
  · intro n
    simp [normalizeDate, Json.isObjectLike]
  · intro s
    by_cases he : jsTrim s = ""
    · simp [normalizeDate, Json.isObjectLike, he]
    · by_cases hu : jsToLower (jsTrim s) = "unknown"
      · simp [normalizeDate, Json.isObjectLike, he, hu]
      · simp [normalizeDate, Json.isObjectLike, he, hu]
  · intro b
    simp [normalizeDate, Json.isObjectLike]
  · intro xs
    simp [normalizeDate, Json.isObjectLike, arr_hasProp_display]

/-- Witness for C9's amended object rule, instantiated at
`{display: "c. 1938"}`. -/
theorem claim_C9_date_witness :
    ((Json.obj [("display", Json.str "c. 1938")]).get "display").truthy = true ∧
      normalizeDate (Json.obj [("display", Json.str "c. 1938")]) =
        (if jsToLower (jsTrim (jsStringOf
            ((Json.obj [("display", Json.str "c. 1938")]).get "display"))) = "unknown" then none
         else some (jsTrim (jsStringOf
            ((Json.obj [("display", Json.str "c. 1938")]).get "display")))) :=
  ⟨by decide, claim_C9_date_amended.2.1 [("display", Json.str "c. 1938")] (by decide)⟩

theorem jsEqTrue_iff (j : Json) : jsEqTrue j = true ↔ j = Json.bool true := by
  cases j with
  | bool b => cases b <;> simp [jsEqTrue]
  | null => simp [jsEqTrue]
  | num n => simp [jsEqTrue]
  | str s => simp [jsEqTrue]
  | arr xs => simp [jsEqTrue]
  | obj kvs => simp [jsEqTrue]

theorem jsEqTrue_false_of_ne (j : Json) (h : j ≠ Json.bool true) : jsEqTrue j = false :=
  Bool.eq_false_iff.mpr (fun ht => h ((jsEqTrue_iff j).mp ht))

theorem normalizeFlags_obj (kvs : List (String × Json)) :
    normalizeFlags (Json.obj kvs) =
      (if ItemFlags.anySet
          ⟨jsEqTrue ((Json.obj kvs).get "possible_duplicate"),
           jsEqTrue ((Json.obj kvs).get "prototype"),
           jsEqTrue ((Json.obj kvs).get "needs_research"),
           jsEqTrue ((Json.obj kvs).get "needs_review"),
           jsEqTrue ((Json.obj kvs).get "attribution_uncertain"),
           jsEqTrue ((Json.obj kvs).get "materials_incomplete"),
           jsEqTrue ((Json.obj kvs).get "missing_dimensions")⟩ then
        some ⟨jsEqTrue ((Json.obj kvs).get "possible_duplicate"),
              jsEqTrue ((Json.obj kvs).get "prototype"),
              jsEqTrue ((Json.obj kvs).get "needs_research"),
              jsEqTrue ((Json.obj kvs).get "needs_review"),
              jsEqTrue ((Json.obj kvs).get "attribution_uncertain"),
              jsEqTrue ((Json.obj kvs).get "materials_incomplete"),
              jsEqTrue ((Json.obj kvs).get "missing_dimensions")⟩
       else none) := rfl

/-- Claim C7: `normalizeFlags` keeps exactly those of the seven recognized
underscore-named keys whose raw value is exactly boolean `true`, renamed to
camelCase; when none survives, or the raw value is null or a primitive,
the result is absence, never an empty mapping. -/
theorem claim_C7_flags :
    (∀ kvs, (∀ k ∈ rawFlagKeys, (Json.obj kvs).get k ≠ Json.bool true) →
      normalizeFlags (Json.obj kvs) = none)
  ∧ (∀ kvs f, normalizeFlags (Json.obj kvs) = some f →
      (f.possibleDuplicate = true ↔ (Json.obj kvs).get "possible_duplicate" = Json.bool true)
      ∧ (f.prototype = true ↔ (Json.obj kvs).get "prototype" = Json.bool true)
      ∧ (f.needsResearch = true ↔ (Json.obj kvs).get "needs_research" = Json.bool true)
      ∧ (f.needsReview = true ↔ (Json.obj kvs).get "needs_review" = Json.bool true)
      ∧ (f.attributionUncertain = true ↔
          (Json.obj kvs).get "attribution_uncertain" = Json.bool true)
      ∧ (f.materialsIncomplete = true ↔
          (Json.obj kvs).get "materials_incomplete" = Json.bool true)
      ∧ (f.missingDimensions = true ↔ (Json.obj kvs).get "missing_dimensions" = Json.bool true)
      ∧ f.anySet = true)
  ∧ (∀ kvs, (∃ k ∈ rawFlagKeys, (Json.obj kvs).get k = Json.bool true) →
      ∃ f, normalizeFlags (Json.obj kvs) = some f)
  ∧ normalizeFlags Json.null = none
  ∧ (∀ n, normalizeFlags (Json.num n) = none)
  ∧ (∀ s, normalizeFlags (Json.str s) = none)
  ∧ (∀ b, normalizeFlags (Json.bool b) = none)
  ∧ normalizeFlags (Json.obj [("possible_duplicate", Json.bool true),
      ("prototype", Json.bool false)]) = some { possibleDuplicate := true }
  ∧ normalizeFlags (Json.obj [("possible_duplicate", Json.bool false)]) = none := by
  refine ⟨?_, ?_, ?_, rfl, ?_, ?_, ?_, by decide, by decide⟩
  · intro kvs h
    rw [normalizeFlags_obj, if_neg]
    intro hA
    simp only [ItemFlags.anySet,
      jsEqTrue_false_of_ne _ (h _ (by decide : "possible_duplicate" ∈ rawFlagKeys)),
      jsEqTrue_false_of_ne _ (h _ (by decide : "prototype" ∈ rawFlagKeys)),
      jsEqTrue_false_of_ne _ (h _ (by decide : "needs_research" ∈ rawFlagKeys)),
      jsEqTrue_false_of_ne _ (h _ (by decide : "needs_review" ∈ rawFlagKeys)),
      jsEqTrue_false_of_ne _ (h _ (by decide : "attribution_uncertain" ∈ rawFlagKeys)),
      jsEqTrue_false_of_ne _ (h _ (by decide : "materials_incomplete" ∈ rawFlagKeys)),
      jsEqTrue_false_of_ne _ (h _ (by decide : "missing_dimensions" ∈ rawFlagKeys)),
      Bool.or_false] at hA
    exact Bool.false_ne_true hA
  · intro kvs f hf
    rw [normalizeFlags_obj] at hf
    split at hf
    · cases hf
      refine ⟨jsEqTrue_iff _, jsEqTrue_iff _, jsEqTrue_iff _, jsEqTrue_iff _,
        jsEqTrue_iff _, jsEqTrue_iff _, jsEqTrue_iff _, ?_⟩
      assumption
    · exact Option.noConfusion hf
  · rintro kvs ⟨k, hk, hget⟩
    rw [normalizeFlags_obj]
    by_cases hA : ItemFlags.anySet
        ⟨jsEqTrue ((Json.obj kvs).get "possible_duplicate"),
         jsEqTrue ((Json.obj kvs).get "prototype"),
         jsEqTrue ((Json.obj kvs).get "needs_research"),
         jsEqTrue ((Json.obj kvs).get "needs_review"),
         jsEqTrue ((Json.obj kvs).get "attribution_uncertain"),
         jsEqTrue ((Json.obj kvs).get "materials_incomplete"),
         jsEqTrue ((Json.obj kvs).get "missing_dimensions")⟩ = true
    · rw [if_pos hA]
      exact ⟨_, rfl⟩
    · exfalso
      apply hA
      fin_cases hk <;> simp [ItemFlags.anySet, hget, jsEqTrue]
  · intro n
    simp [normalizeFlags, Json.isObjectLike]
  · intro s
    simp [normalizeFlags, Json.isObjectLike]
  · intro b
    simp [normalizeFlags, Json.isObjectLike]

/-- Witness for C7: the no-true-flag rule at `{possible_duplicate: false}`
and the survival rule at `{needs_review: true}`. -/
theorem claim_C7_flags_witness :
    normalizeFlags (Json.obj [("possible_duplicate", Json.bool false)]) = none ∧
      ∃ f, normalizeFlags (Json.obj [("needs_review", Json.bool true)]) = some f := by
  constructor
  · apply claim_C7_flags.1
    intro k hk
    fin_cases hk <;> simp [Json.get, Json.entries]
  · exact claim_C7_flags.2.2.1 _ ⟨"needs_review", by decide, rfl⟩

theorem get_of_not_truthy (j : Json) (k : String) (h : j.truthy = false) :
    j.get k = Json.null := by
  cases j with
  | null => rfl
  | bool b => rfl
  | num n => rfl
  | str s => rfl
  | arr xs => simp [Json.truthy] at h
  | obj kvs => simp [Json.truthy] at h

theorem relPred_eq (item : Json) :
    (item.truthy && (item.get "type").truthy && (item.get "object_id").truthy)
      = ((item.get "type").truthy && (item.get "object_id").truthy) := by
  cases ht : item.truthy
  · rw [get_of_not_truthy item "type" ht]
    simp [Json.truthy]
  · simp

theorem normalizeRelated_arr (xs : List Json) :
    normalizeRelated (Json.arr xs)
      = (xs.filter (fun item =>
            (item.get "type").truthy && (item.get "object_id").truthy)).map
          (fun item => ⟨item.get "type", item.get "object_id", none⟩) := by
  cases xs with
  | nil => rfl
  | cons a l =>
    simp only [normalizeRelated, List.length_cons, Nat.succ_ne_zero, if_false]
    exact congrArg _ (List.filter_congr (fun item _ => relPred_eq item))

/-- Claim C8: `normalizeRelated` always returns a sequence, never absence:
a non-array raw value yields the empty sequence; from an array, every
entry with a falsy (or missing) relation kind or target identifier is
dropped, and each surviving entry is reshaped to its kind and target
identifier, in input order, with the display-name (`title`) slot left
unset. -/
theorem claim_C8_related :
    normalizeRelated Json.null = []
  ∧ (∀ s, normalizeRelated (Json.str s) = [])
  ∧ (∀ n, normalizeRelated (Json.num n) = [])
  ∧ (∀ b, normalizeRelated (Json.bool b) = [])
  ∧ (∀ kvs, normalizeRelated (Json.obj kvs) = [])
  ∧ (∀ xs, normalizeRelated (Json.arr xs)
      = (xs.filter (fun item =>
            (item.get "type").truthy && (item.get "object_id").truthy)).map
          (fun item => ⟨item.get "type", item.get "object_id", none⟩))
  ∧ (∀ xs, ∀ r ∈ normalizeRelated (Json.arr xs), r.title = none) := by
  refine ⟨rfl, fun s => rfl, fun n => rfl, fun b => rfl, fun kvs => rfl,
    normalizeRelated_arr, ?_⟩
  intro xs r hr
  rw [normalizeRelated_arr] at hr
  obtain ⟨item, -, rfl⟩ := List.mem_map.mp hr
  rfl

/-- Witness for C8's title-slot conjunct: the single surviving entry of a
one-element related array has its title slot unset. -/
theorem claim_C8_related_witness :
    (RelatedItemR.mk (Json.str "paired-with") (Json.str "A") none).title = none :=
  claim_C8_related.2.2.2.2.2.2
    [Json.obj [("type", Json.str "paired-with"), ("object_id", Json.str "A")]]
    ⟨Json.str "paired-with", Json.str "A", none⟩ (List.mem_singleton_self _)

theorem enrich_eq (items : List Item) :
    enrichRelatedItems items = items.map (fun item =>
      { item with related := item.related.map (fun rel =>
          { rel with title := some (jsOrStr (mapGet (buildTitleMap items) rel.objectId)
              rel.objectId) }) }) := rfl

/-- Claim C6: enrichment returns a list of the same length whose i-th item
agrees with the i-th input on every field other than `related`, and whose
related list keeps length, order, relation kind and target identifier —
only the title slot is assigned. -/
theorem claim_C6_enrichment_frame :
    ∀ items : List Item, (enrichRelatedItems items).length = items.length ∧
      List.Forall₂ agreesExceptRelated items (enrichRelatedItems items) := by
  intro items
  constructor
  · rw [enrich_eq, List.length_map]
  · rw [enrich_eq, List.forall₂_map_right_iff, List.forall₂_same]
    intro x _
    refine ⟨rfl, rfl, rfl, rfl, rfl, rfl, rfl, rfl, rfl, rfl, rfl, rfl, rfl, rfl,
      rfl, rfl, rfl, rfl, rfl, rfl, rfl, rfl, rfl, rfl, rfl, rfl, rfl, ?_⟩
    rw [List.forall₂_map_right_iff, List.forall₂_same]
    intro r _
    exact ⟨rfl, rfl⟩

theorem buildTitleMap_enrich (items : List Item) :
    buildTitleMap (enrichRelatedItems items) = buildTitleMap items := by
  rw [enrich_eq]
  unfold buildTitleMap
  rw [List.foldl_map]

/-- Claim C10: enrichment is idempotent — a second pass recomputes every
related entry's title from the unchanged id and title fields and assigns
the same value. -/
theorem claim_C10_enrich_idempotent :
    ∀ items : List Item,
      enrichRelatedItems (enrichRelatedItems items) = enrichRelatedItems items := by
  intro items
  rw [enrich_eq (enrichRelatedItems items), buildTitleMap_enrich]
  rw [enrich_eq items, List.map_map]
  apply List.map_congr_left
  intro x _
  show _ = _
  rw [Function.comp_apply, List.map_map]
  rfl

theorem foldl_mapSet_append :
    ∀ (l : List Item) (m : List (String × String)),
      (∀ it ∈ l, ∀ p ∈ m, p.1 ≠ it.id) → l.Pairwise (fun a b => a.id ≠ b.id) →
      l.foldl (fun m item => mapSet m item.id item.title) m
        = m ++ l.map (fun it => (it.id, it.title)) := by
  intro l
  induction l with
  | nil => intro m _ _; simp
  | cons a l ih =>
    intro m hdisj hpw
    have hset : mapSet m a.id a.title = m ++ [(a.id, a.title)] := by
      unfold mapSet
      rw [if_neg]
      intro hany
      simp only [List.any_eq_true, decide_eq_true_eq] at hany
      obtain ⟨p, hp, hpe⟩ := hany
      exact hdisj a (List.mem_cons_self a l) p hp hpe
    rw [List.foldl_cons, hset, ih]
    · simp
    · intro it hit p hp
      rcases List.mem_append.mp hp with h1 | h2
      · exact hdisj it (List.mem_cons_of_mem a hit) p h1
      · have hpa : p = (a.id, a.title) := by simpa using h2
        rw [hpa]
        exact (List.pairwise_cons.mp hpw).1 it hit
    · exact (List.pairwise_cons.mp hpw).2

theorem buildTitleMap_nodup (items : List Item)
    (h : items.Pairwise (fun a b => a.id ≠ b.id)) :
    buildTitleMap items = items.map (fun it => (it.id, it.title)) := by
  unfold buildTitleMap
  rw [foldl_mapSet_append items [] (by intro it _ p hp; simp at hp) h]
  rfl

theorem mapGet_map_items (items : List Item) (k : String) :
    mapGet (items.map (fun it => (it.id, it.title))) k
      = (items.find? (fun it => it.id = k)).map (fun it => it.title) := by
  unfold mapGet
  rw [List.find?_map]
  rw [Option.map_map]
  rfl

/-- Counterexample to claim C5: in a single-item collection whose item has
id "A" and the empty string as title, the related entry targeting "A" is
resolved to "A" (the identifier), not to the matching item's title "" —
`titleMap.get(id) || id` also falls back on an empty-string title. -/
theorem claim_C5_enrichment_counterexample :
    (enrichRelatedItems [emptyTitleItem]).map (fun it => it.related.map (fun r => r.title))
        = [[some "A"]]
      ∧ emptyTitleItem.id = "A" ∧ emptyTitleItem.title = "" ∧ some "A" ≠ some "" := by
  refine ⟨rfl, rfl, rfl, by decide⟩

/-- Claim C5 as amended: for items with pairwise-distinct ids, every
related entry of every enriched item has its title slot set: to the title
of the item whose id equals the entry's target identifier when such an
item exists and its title is non-empty, and otherwise to the identifier
itself; an unresolved identifier is never an error. -/
theorem claim_C5_enrichment_amended :
    ∀ items : List Item, items.Pairwise (fun a b => a.id ≠ b.id) →
      ∀ it ∈ enrichRelatedItems items, ∀ rel ∈ it.related,
        rel.title = some (resolveTitle items rel.objectId) := by
  intro items hpw it hit rel hrel
  rw [enrich_eq] at hit
  obtain ⟨x, hx, rfl⟩ := List.mem_map.mp hit
  obtain ⟨r, hr, rfl⟩ := List.mem_map.mp hrel
  show some (jsOrStr (mapGet (buildTitleMap items) r.objectId) r.objectId) = _
  rw [buildTitleMap_nodup items hpw, mapGet_map_items]
  unfold resolveTitle jsOrStr
  cases hf : items.find? (fun it => it.id = r.objectId) with
  | none => rfl
  | some y => simp

/-- Witness for C5's amended resolution rule on the spec's example
collection: "A" resolves to "Chair" and "Z" falls back to "Z". -/
theorem claim_C5_enrichment_witness :
    demoItems.Pairwise (fun a b => a.id ≠ b.id)
      ∧ RelatedItem.title ⟨"paired-with", "A", some "Chair"⟩
          = some (resolveTitle demoItems "A")
      ∧ RelatedItem.title ⟨"paired-with", "Z", some "Z"⟩
          = some (resolveTitle demoItems "Z") := by
  have hpw : demoItems.Pairwise (fun a b => a.id ≠ b.id) := by
    unfold demoItems mkItem
    simp
  refine ⟨hpw, ?_, ?_⟩
  · exact claim_C5_enrichment_amended demoItems hpw
      { mkItem "B" "Table" [⟨"paired-with", "A", none⟩, ⟨"paired-with", "Z", none⟩] with
        related := [⟨"paired-with", "A", some "Chair"⟩, ⟨"paired-with", "Z", some "Z"⟩] }
      (by right; exact List.mem_singleton_self _)
      ⟨"paired-with", "A", some "Chair"⟩ (List.mem_cons_self _ _)
  · exact claim_C5_enrichment_amended demoItems hpw
      { mkItem "B" "Table" [⟨"paired-with", "A", none⟩, ⟨"paired-with", "Z", none⟩] with
        related := [⟨"paired-with", "A", some "Chair"⟩, ⟨"paired-with", "Z", some "Z"⟩] }
      (by right; exact List.mem_singleton_self _)
      ⟨"paired-with", "Z", some "Z"⟩ (by right; exact List.mem_singleton_self _)

theorem normalizeString_ok (j : Json) (h : strOrNull j) : ∃ v, normalizeString j = .ok v := by
  rcases h with h | ⟨s, h⟩ <;> subst h
  · exact ⟨none, rfl⟩
  · refine ⟨if jsTrim s = "" then none else some (jsTrim s), ?_⟩
    show (if jsTrim s = "" then Except.ok none else Except.ok (some (jsTrim s)))
        = Except.ok (if jsTrim s = "" then none else some (jsTrim s))
    split <;> rfl

theorem jsFilterNotUnknown_ok (xs : List Json) (h : ∀ x ∈ xs, ∃ s, x = Json.str s) :
    ∃ v, jsFilterNotUnknown xs = .ok v := by
  induction xs with
  | nil => exact ⟨[], rfl⟩
  | cons a l ih =>
    obtain ⟨s, rfl⟩ := h _ (List.mem_cons_self a l)
    obtain ⟨v, hv⟩ := ih (fun x hx => h x (List.mem_cons_of_mem _ hx))
    simp only [jsFilterNotUnknown, hv, exceptBind_ok]
    refine ⟨if jsToLower s ≠ "unknown" then Json.str s :: v else v, ?_⟩
    split <;> rfl

theorem normalizeCreator_ok (j : Json) (h : creatorOk j) : ∃ v, normalizeCreator j = .ok v := by
  cases j with
  | arr xs =>
    obtain ⟨v, hv⟩ := jsFilterNotUnknown_ok xs (h xs rfl)
    simp only [normalizeCreator, hv, exceptBind_ok]
    refine ⟨if xs.length = 0 then none
      else if v.length = 0 then none else some (jsJoin " and " v), ?_⟩
    split
    · rfl
    · split <;> rfl
  | null => exact ⟨none, rfl⟩
  | str s =>
    by_cases he : jsTrim s = ""
    · exact ⟨none, by simp [normalizeCreator, he]⟩
    · by_cases hu : jsToLower (jsTrim s) = "unknown"
      · exact ⟨none, by simp [normalizeCreator, he, hu]⟩
      · exact ⟨some (jsTrim s), by simp [normalizeCreator, he, hu]⟩
  | bool b => exact ⟨none, rfl⟩
  | num n => exact ⟨none, rfl⟩
  | obj kvs => exact ⟨none, rfl⟩

/-- Counterexample to claim C1: normalization is not total over all
JSON-representable records.  An array of numbers as creator makes
`creator.filter(c => c.toLowerCase() ...)` throw a TypeError, and a number
as accession_number makes `value.trim()` throw; both are modeled as the
error result, not as absence. -/
theorem claim_C1_totality_counterexample :
    transformRecord (Json.obj [("creator", Json.arr [Json.num 1])]) = .error ()
      ∧ transformRecord (Json.obj [("accession_number", Json.num 5)]) = .error () :=
  ⟨rfl, rfl⟩

/-- Claim C1 as amended: `transformRecord` returns a canonical item without
failing for every record whose six plain string fields (accession_number,
description, credit_line, condition, transcription, status) are strings or
absent, and whose creator, if an array, contains only strings; outside
that space the string coercions throw a (modeled) TypeError. -/
theorem claim_C1_totality_amended :
    ∀ record : Json,
      strOrNull (record.get "accession_number") →
      strOrNull (record.get "description") →
      strOrNull (record.get "credit_line") →
      strOrNull (record.get "condition") →
      strOrNull (record.get "transcription") →
      strOrNull (record.get "status") →
      creatorOk (record.get "creator") →
      ∃ item, transformRecord record = .ok item := by
  intro record h1 h2 h3 h4 h5 h6 hc
  obtain ⟨v1, e1⟩ := normalizeString_ok _ h1
  obtain ⟨v2, e2⟩ := normalizeString_ok _ h2
  obtain ⟨v3, e3⟩ := normalizeString_ok _ h3
  obtain ⟨v4, e4⟩ := normalizeString_ok _ h4
  obtain ⟨v5, e5⟩ := normalizeString_ok _ h5
  obtain ⟨v6, e6⟩ := normalizeString_ok _ h6
  obtain ⟨vc, ec⟩ := normalizeCreator_ok _ hc
  unfold transformRecord
  rw [e1, exceptBind_ok, ec, exceptBind_ok, e2, exceptBind_ok, e3, exceptBind_ok,
    e4, exceptBind_ok, e5, exceptBind_ok, e6, exceptBind_ok]
  exact ⟨_, rfl⟩

/-- Witness for C1's amended totality at a minimal concrete record. -/
theorem claim_C1_totality_witness :
    ∃ item, transformRecord (Json.obj [("object_id", Json.str "obj-1"),
      ("title", Json.str "Chair")]) = .ok item :=
  claim_C1_totality_amended _ (Or.inl rfl) (Or.inl rfl) (Or.inl rfl) (Or.inl rfl)
    (Or.inl rfl) (Or.inl rfl) (fun _ h => nomatch h)

theorem str_append_left_ne (a b : String) (ha : a ≠ "") : a ++ b ≠ "" := by
  rw [str_ne_empty_iff] at ha ⊢
  rw [String.data_append]
  intro h
  exact ha (List.append_eq_nil.mp h).1

theorem intercalate_go_ne_empty (sep : String) (l : List String) :
    ∀ acc : String, acc ≠ "" → String.intercalate.go acc sep l ≠ "" := by
  induction l with
  | nil => intro acc ha; exact ha
  | cons a as ih =>
    intro acc ha
    show String.intercalate.go (acc ++ sep ++ a) sep as ≠ ""
    exact ih _ (str_append_left_ne _ _ (str_append_left_ne _ _ ha))

theorem intercalate_cons_ne_empty (sep p : String) (rest : List String) (hp : p ≠ "") :
    String.intercalate sep (p :: rest) ≠ "" := by
  show String.intercalate.go p sep rest ≠ ""
  exact intercalate_go_ne_empty sep rest p hp

theorem dimsSynth_ne_empty (dims : Json) (v : String) (h : dimsSynth dims = some v) :
    v ≠ "" := by
  simp only [dimsSynth] at h
  split at h
  · rename_i hlen
    cases h
    cases hp : dimsParts dims dimensionMap with
    | nil => rw [hp] at hlen; simp at hlen
    | cons q rest =>
      apply intercalate_cons_ne_empty
      have hq : q ∈ dimsParts dims dimensionMap := by
        rw [hp]; exact List.mem_cons_self q rest
      unfold dimsParts at hq
      have hpred := List.of_mem_filter hq
      simp only [Bool.and_eq_true, decide_eq_true_eq] at hpred
      exact hpred.1
  · exact Option.noConfusion h

theorem normalizeDimensions_ne_empty (j : Json) (v : String)
    (h : normalizeDimensions j = some v) : v ≠ "" := by
  unfold normalizeDimensions at h
  split at h
  · exact Option.noConfusion h
  · split at h
    · rename_i s heq
      split at h
      · simp only [ne_eq] at h
        split at h
        · rename_i hcond
          cases h
          simp only [Bool.and_eq_true, decide_eq_true_eq] at hcond
          intro hv
          apply hcond.1.1
          rw [hv]
          rfl
        · exact dimsSynth_ne_empty _ _ h
      · exact dimsSynth_ne_empty _ _ h
    · exact dimsSynth_ne_empty _ _ h

/-- Counterexample to claim C2: joining raw arrays does not re-trim or
re-check emptiness — `materials: [""]` and `creator: [""]` produce the
empty string (not absence), and `materials: [" wood "]` produces an
untrimmed string. -/
theorem claim_C2_textual_counterexample :
    (transformRecord (Json.obj [("materials", Json.arr [Json.str ""])])).map ItemR.materials
        = .ok (some "")
  ∧ (transformRecord (Json.obj [("creator", Json.arr [Json.str ""])])).map ItemR.creator
        = .ok (some "")
  ∧ (transformRecord (Json.obj [("materials",
        Json.arr [Json.str " wood "])])).map ItemR.materials = .ok (some " wood ")
  ∧ jsTrim " wood " ≠ " wood " :=
  ⟨rfl, rfl, rfl, by decide⟩

/-- Claim C2 as amended: the fields produced by `normalizeString`
(accessionNumber, description, creditLine, condition, transcription,
status) are always either absent or a non-empty string equal to its own
trim; creator and materials satisfy the invariant for raw string inputs,
and date for raw number and string inputs, as does rights for raw string
inputs; dimensions is never the empty string.  Array-joined creator and
materials values (and object-carried date displays and rights statuses)
are passed through verbatim and can violate the invariant. -/
theorem claim_C2_textual_amended :
    (∀ j v, normalizeString j = .ok (some v) → StrInv v)
  ∧ (∀ s v, normalizeCreator (Json.str s) = .ok (some v) → StrInv v)
  ∧ (∀ s v, normalizeMaterials (Json.str s) = some v → StrInv v)
  ∧ (∀ n v, normalizeDate (Json.num n) = some v → StrInv v)
  ∧ (∀ s v, normalizeDate (Json.str s) = some v → StrInv v)
  ∧ (∀ s v, normalizeRights (Json.str s) = some (Json.str v) → StrInv v)
  ∧ (∀ j v, normalizeDimensions j = some v → v ≠ "") := by
  refine ⟨?_, ?_, ?_, ?_, ?_, ?_, normalizeDimensions_ne_empty⟩
  · intro j v h
    cases j with
    | str s =>
      by_cases he : jsTrim s = ""
      · simp [normalizeString, he] at h
      · simp [normalizeString, he] at h
        exact h ▸ ⟨he, jsTrim_idem s⟩
    | null => simp [normalizeString] at h
    | bool b => simp [normalizeString] at h
    | num n => simp [normalizeString] at h
    | arr xs => simp [normalizeString] at h
    | obj kvs => simp [normalizeString] at h
  · intro s v h
    by_cases he : jsTrim s = ""
    · simp [normalizeCreator, he] at h
    · by_cases hu : jsToLower (jsTrim s) = "unknown"
      · simp [normalizeCreator, he, hu] at h
      · simp [normalizeCreator, he, hu] at h
        exact h ▸ ⟨he, jsTrim_idem s⟩
  · intro s v h
    by_cases he : jsTrim s = ""
    · simp [normalizeMaterials, he] at h
    · simp [normalizeMaterials, he] at h
      exact h ▸ ⟨he, jsTrim_idem s⟩
  · intro n v h
    simp [normalizeDate, Json.isObjectLike] at h
    exact h ▸ intToString_StrInv n
  · intro s v h
    by_cases he : jsTrim s = ""
    · simp [normalizeDate, Json.isObjectLike, he] at h
    · by_cases hu : jsToLower (jsTrim s) = "unknown"
      · simp [normalizeDate, Json.isObjectLike, he, hu] at h
      · simp [normalizeDate, Json.isObjectLike, he, hu] at h
        exact h ▸ ⟨he, jsTrim_idem s⟩
  · intro s v h
    by_cases hse : s = ""
    · simp [normalizeRights, Json.truthy, hse] at h
    · by_cases he : jsTrim s = ""
      · simp [normalizeRights, Json.truthy, hse, he] at h
      · simp [normalizeRights, Json.truthy, hse, he] at h
        exact h ▸ ⟨he, jsTrim_idem s⟩

/-- Witness for C2's amended invariant: `normalizeString` on " Chair "
yields the non-empty trimmed string "Chair". -/
theorem claim_C2_textual_witness : StrInv "Chair" :=
  claim_C2_textual_amended.1 (Json.str " Chair ") "Chair" rfl
